import Mathlib

/-!
Verification of the MediaSDK_C2 encoder component contract.

The repository ships the exhaustive conformance test suite of the component
(`test/mfx_c2_enc_comp_test.cpp`); the component implementation itself
(`MfxC2Component` and the encoder built on it) is not part of the sources
available here, so the component is modelled from the specification
(spec.md sections 3-7) and from the observable contract encoded in the
test suite.  Every definition below carries a note saying which part of
the spec or of the test file it embeds.
-/

/-- Status codes of the Codec2 API used by the component
(`c2_status_t` in the source test file): `C2_OK`, `C2_BAD_STATE`,
`C2_BAD_INDEX`, `C2_BAD_VALUE`, `C2_NOT_FOUND`, `C2_CANCELED`,
`C2_CORRUPTED`. -/
inductive C2Status where
  | C2_OK
  | C2_BAD_STATE
  | C2_BAD_INDEX
  | C2_BAD_VALUE
  | C2_NOT_FOUND
  | C2_CANCELED
  | C2_CORRUPTED
deriving DecidableEq, Repr

/-- Modelled from the spec: ComponentState (spec.md section 3) of the
lifecycle state machine missing from src/ — one of STOPPED (initial)
and RUNNING. -/
inductive ComponentState where
  | STOPPED
  | RUNNING
deriving DecidableEq, Repr

/-- Modelled from the spec: `start()` of the Lifecycle State Machine
(spec.md section 4.1), missing from src/ — STOPPED→RUNNING, succeeds only
from STOPPED, fails with InvalidState (C2_BAD_STATE) otherwise without
changing state. -/
def start : ComponentState → C2Status × ComponentState
  | ComponentState.STOPPED => (C2Status.C2_OK, ComponentState.RUNNING)
  | ComponentState.RUNNING => (C2Status.C2_BAD_STATE, ComponentState.RUNNING)

/-- Modelled from the spec: `stop()` of the Lifecycle State Machine
(spec.md section 4.1), missing from src/ — RUNNING→STOPPED, succeeds only
from RUNNING, fails with InvalidState (C2_BAD_STATE) otherwise without
changing state. -/
def stop : ComponentState → C2Status × ComponentState
  | ComponentState.RUNNING => (C2Status.C2_OK, ComponentState.STOPPED)
  | ComponentState.STOPPED => (C2Status.C2_BAD_STATE, ComponentState.STOPPED)

/-- Codec of the encoder component: `c2.intel.avc.encoder` or
`c2.intel.hevc.encoder` (test file, `g_components_desc`). -/
inductive Codec where
  | avc
  | hevc
deriving DecidableEq, Repr

/-- Modelled from the spec: the in-memory global parameter snapshot of the
component (spec.md sections 3 and 6), missing from src/.  Fields follow the
parameter list `DefaultC2Params` of the test file: RateControl, FrameRate,
Bitrate, FrameQP (three sub-fields), IntraRefresh (one-shot), Profile,
Level, MemoryType.  `intraRefresh` is the one-shot forced-keyframe field of
spec.md section 4.4. -/
structure GlobalState where
  codec : Codec
  rateControl : Nat
  frameRate : Nat
  bitrate : Nat
  qp_i : Nat
  qp_p : Nat
  qp_b : Nat
  profile : Nat
  level : Nat
  memoryType : Nat
  intraRefresh : Bool
deriving DecidableEq, Repr

/-- Parameter values submitted through `config_vb` or attached to a work
item as tunings (test file: `C2RateControlSetting`,
`C2StreamFrameRateInfo`, `C2StreamBitrateInfo`, `C2FrameQPSetting`,
`C2IntraRefreshTuning`, `C2ProfileSetting`, `C2LevelSetting`,
`C2MemoryTypeSetting`, and the `C2UnsupportedSetting` of the
UnsupportedParam test). -/
inductive C2Param where
  | rateControl (v : Nat)
  | frameRate (v : Nat)
  | bitrate (v : Nat)
  | frameQP (qp_i qp_p qp_b : Nat)
  | intraRefresh (v : Bool)
  | profile (v : Nat)
  | level (v : Nat)
  | memoryType (v : Nat)
  | unsupported (index : Nat) (v : Int)
deriving DecidableEq, Repr

/-- The field a `C2SettingResult` refers to: either the whole parameter
(used for unknown keys, test UnsupportedParam) or one of the validated
sub-fields of FrameQP (test StaticFrameQP). -/
inductive FieldId where
  | wholeParam (index : Nat)
  | qp_i
  | qp_p
  | qp_b
deriving DecidableEq, Repr

/-- Failure code inside a `C2SettingResult` (test file: BAD_TYPE for an
unknown parameter, BAD_VALUE for an out-of-range field). -/
inductive SettingFailure where
  | BAD_TYPE
  | BAD_VALUE
deriving DecidableEq, Repr

/-- A supported-values description of RANGE type, as checked by the
StaticFrameQP test: min, max, step, num, denom. -/
structure FieldSupportedValues where
  min : Nat
  max : Nat
  step : Nat
  num : Nat
  denom : Nat
deriving DecidableEq, Repr

/-- One per-field validation outcome (`C2SettingResult` of the source test
file): the field it refers to, the failure code, an optional value-domain
description and a conflict list. -/
structure C2SettingResult where
  field : FieldId
  failure : SettingFailure
  values : Option FieldSupportedValues
  conflicts : List Nat
deriving DecidableEq, Repr

/-- The declared QP domain: inclusive range 1..51 with step 1
(test StaticFrameQP, checks on `set_res->field.values->range`). -/
def qpSupportedValues : FieldSupportedValues :=
  { min := 1, max := 51, step := 1, num := 1, denom := 1 }

/-- Whether a QP value lies in the declared range 1..51
(test StaticFrameQP: valid runs use 25/30/35, invalid 0/100). -/
def qpValid (v : Nat) : Bool :=
  decide (1 ≤ v) && decide (v ≤ 51)

/-- The field-level failure reported for one out-of-range QP sub-field:
BAD_VALUE carrying the declared range (test StaticFrameQP). -/
def qpFailure (f : FieldId) : C2SettingResult :=
  { field := f, failure := SettingFailure.BAD_VALUE,
    values := some qpSupportedValues, conflicts := [] }

/-- Modelled from the spec: `validate` of the Parameter Registry
(spec.md section 4.2), missing from src/ — an unknown key yields a single
whole-parameter failure with no value domain; a known key with
out-of-range sub-fields yields one field-level failure per invalid
sub-field, each carrying the declared constraint. -/
def validateParam : C2Param → List C2SettingResult
  | C2Param.unsupported index _ =>
      [{ field := FieldId.wholeParam index, failure := SettingFailure.BAD_TYPE,
         values := none, conflicts := [] }]
  | C2Param.frameQP i p b =>
      (if qpValid i then [] else [qpFailure FieldId.qp_i]) ++
      (if qpValid p then [] else [qpFailure FieldId.qp_p]) ++
      (if qpValid b then [] else [qpFailure FieldId.qp_b])
  | _ => []

/-- Modelled from the spec: applying one validated parameter to global
state (spec.md sections 3 and 4.2), missing from src/ — fields within one
structured parameter succeed or fail together, so a parameter with any
validation failure applies none of its fields. -/
def applyParam (g : GlobalState) (p : C2Param) : GlobalState :=
  if (validateParam p).isEmpty then
    match p with
    | C2Param.rateControl v => { g with rateControl := v }
    | C2Param.frameRate v => { g with frameRate := v }
    | C2Param.bitrate v => { g with bitrate := v }
    | C2Param.frameQP i p b => { g with qp_i := i, qp_p := p, qp_b := b }
    | C2Param.intraRefresh v => { g with intraRefresh := v }
    | C2Param.profile v => { g with profile := v }
    | C2Param.level v => { g with level := v }
    | C2Param.memoryType v => { g with memoryType := v }
    | C2Param.unsupported _ _ => g
  else g

/-- Modelled from the spec: `config_vb` / `validate/apply` of the caller
API (spec.md sections 4.2 and 6), missing from src/ — validates every
parameter of the request, collects per-field failures, applies the
parameters that validated cleanly, and returns an aggregate status:
C2_BAD_INDEX when an unknown key was present (test UnsupportedParam),
C2_BAD_VALUE when only value failures occurred (test StaticFrameQP),
C2_OK when there was no failure. -/
def config_vb (g : GlobalState) (ps : List C2Param) :
    C2Status × List C2SettingResult × GlobalState :=
  let failures := (ps.map validateParam).flatten
  let g1 := ps.foldl applyParam g
  let status :=
    if failures.isEmpty then C2Status.C2_OK
    else if failures.any (fun f =>
        match f.failure with
        | SettingFailure.BAD_TYPE => true
        | SettingFailure.BAD_VALUE => false) then C2Status.C2_BAD_INDEX
    else C2Status.C2_BAD_VALUE
  (status, failures, g1)

/-- Keys a caller can query through `query_vb`. -/
inductive Key where
  | rateControl
  | frameRate
  | bitrate
  | frameQP
  | intraRefresh
  | profile
  | level
  | memoryType
deriving DecidableEq, Repr

/-- A queried value: plain numeric value, the FrameQP triple, or a flag. -/
inductive QueryVal where
  | num (v : Nat)
  | qp (qp_i qp_p qp_b : Nat)
  | flag (b : Bool)
deriving DecidableEq, Repr

/-- Modelled from the spec: `query` of the caller API (spec.md section 6),
missing from src/ — returns values consistent with the most recently
applied configuration, reading the global parameter snapshot. -/
def query (g : GlobalState) : Key → QueryVal
  | Key.rateControl => QueryVal.num g.rateControl
  | Key.frameRate => QueryVal.num g.frameRate
  | Key.bitrate => QueryVal.num g.bitrate
  | Key.frameQP => QueryVal.qp g.qp_i g.qp_p g.qp_b
  | Key.intraRefresh => QueryVal.flag g.intraRefresh
  | Key.profile => QueryVal.num g.profile
  | Key.level => QueryVal.num g.level
  | Key.memoryType => QueryVal.num g.memoryType

/-- Default global state of the avc encoder component, used to instantiate
witness checks (values follow `GetDefaultValues` of the test file: CBR
rate control, 30 fps, 2222 kbps). -/
def defaultGlobalState : GlobalState :=
  { codec := Codec.avc, rateControl := 1, frameRate := 30, bitrate := 2222000,
    qp_i := 30, qp_p := 30, qp_b := 30, profile := 578, level := 51,
    memoryType := 0, intraRefresh := false }

/-- One emitted bitstream unit (NAL unit): its nal_unit_type and payload
bytes, the granularity at which the test helpers `CountIdrSlices` and
`ExtractHeader` inspect the bitstream. -/
structure NalUnit where
  unitType : Nat
  payload : List Nat
deriving DecidableEq, Repr

/-- SPS nal_unit_type: 7 for AVC, 33 for HEVC (test `ExtractHeader`). -/
def spsType : Codec → Nat
  | Codec.avc => 7
  | Codec.hevc => 33

/-- PPS nal_unit_type: 8 for AVC, 34 for HEVC (test `ExtractHeader`). -/
def ppsType : Codec → Nat
  | Codec.avc => 8
  | Codec.hevc => 34

/-- VPS nal_unit_type, HEVC only: 32 (test `ExtractHeader`). -/
def vpsType : Nat := 32

/-- IDR slice nal_unit_type: 5 for AVC, 19 (IDR_W_RADL) for HEVC
(test `CountIdrSlices`). -/
def idrType : Codec → Nat
  | Codec.avc => 5
  | Codec.hevc => 19

/-- nal_unit_type of a non-IDR slice in the model: 1 for both codecs. -/
def nonIdrType : Nat := 1

/-- Modelled from the spec: the codec initialization header emitted by the
encode engine (spec.md section 3, configuration-update notices carrying
header data; test EncodeHeaderSupplied) — VPS (HEVC only) followed by SPS
and PPS, derived from the configuration in force. -/
def headerUnits (g : GlobalState) : List NalUnit :=
  (match g.codec with
   | Codec.avc => []
   | Codec.hevc => [{ unitType := vpsType, payload := [g.profile, g.level] }]) ++
  [{ unitType := spsType g.codec, payload := [g.profile, g.level, g.frameRate] },
   { unitType := ppsType g.codec, payload := [g.bitrate] }]

/-- Modelled from the spec: the resolved parameter set handed to the
Encode Engine Adapter for one work item (spec.md section 4.4).  It carries
no memory-type field: the memory type only selects where input frames are
stored (spec.md section 6, Buffer Pool boundary), not what is encoded. -/
structure EffectiveParams where
  rateControl : Nat
  frameRate : Nat
  bitrate : Nat
  qp_i : Nat
  qp_p : Nat
  qp_b : Nat
  profile : Nat
  level : Nat
  keyRequest : Bool
deriving DecidableEq, Repr

/-- Modelled from the spec: the global state snapshot the Tuning Resolver
starts from (spec.md section 4.4); the one-shot forced-keyframe request is
read from the global `intraRefresh` field. -/
def snapshot (g : GlobalState) : EffectiveParams :=
  { rateControl := g.rateControl, frameRate := g.frameRate,
    bitrate := g.bitrate, qp_i := g.qp_i, qp_p := g.qp_p, qp_b := g.qp_b,
    profile := g.profile, level := g.level, keyRequest := g.intraRefresh }

/-- Modelled from the spec: applying one item-local tuning on top of the
snapshot, field by field (spec.md section 4.4) — a local tuning overrides
the global value for that single item only and never mutates global
state. -/
def applyTuning (e : EffectiveParams) : C2Param → EffectiveParams
  | C2Param.rateControl v => { e with rateControl := v }
  | C2Param.frameRate v => { e with frameRate := v }
  | C2Param.bitrate v => { e with bitrate := v }
  | C2Param.frameQP i p b => { e with qp_i := i, qp_p := p, qp_b := b }
  | C2Param.intraRefresh v => { e with keyRequest := v }
  | C2Param.profile v => { e with profile := v }
  | C2Param.level v => { e with level := v }
  | C2Param.memoryType _ => e
  | C2Param.unsupported _ _ => e

/-- Modelled from the spec: `effective(global_state, item.local_tunings)`
of the Tuning Resolver (spec.md section 4.4) — start from the global
snapshot and apply the item's local tunings on top. -/
def effective (g : GlobalState) (tunings : List C2Param) : EffectiveParams :=
  tunings.foldl applyTuning (snapshot g)

/-- Modelled from the spec: the consumed-then-cleared rule for one-shot
fields (spec.md section 4.4) — a one-shot field is automatically cleared
from global state immediately after being read for encoding. -/
def consumeOneShot (g : GlobalState) : GlobalState :=
  { g with intraRefresh := false }

/-- A WorkItem (spec.md section 3, and `C2Work` of the test file):
sequence index, timestamp, end-of-stream flag, zero-or-one input frame
and the ordered list of local tunings. -/
structure WorkItem where
  frameIndex : Nat
  timestamp : Nat
  eos : Bool
  buffer : Option (List Nat)
  tunings : List C2Param
deriving DecidableEq, Repr

/-- A WorkResult (spec.md section 3, and the fields the test consumer
`EncoderConsumer::onWorkDone_nb` inspects): sequence index, timestamp,
status, output units, optional configuration-update carrying header data,
completed-worklet count and the sync-frame flag reported through
`C2StreamPictureTypeMaskInfo` (test IntraRefresh). -/
structure WorkResult where
  frameIndex : Nat
  timestamp : Nat
  status : C2Status
  buffers : List NalUnit
  configUpdate : Option (List NalUnit)
  workletsProcessed : Nat
  keyframe : Bool
deriving DecidableEq, Repr

/-- Modelled from the spec: the Encode Engine Adapter contract
`encode(effective_params, frame) -> output units` (spec.md section 6) —
an opaque deterministic transform of the effective parameters and the
frame bytes; it emits one slice unit per frame, an IDR slice when a
keyframe was requested. -/
def encodeFrame (c : Codec) (e : EffectiveParams) (frame : List Nat) :
    List NalUnit :=
  [{ unitType := if e.keyRequest then idrType c else nonIdrType,
     payload := frame }]

/-- Modelled from the spec: the per-session state of the Work Queue
execution engine, missing from src/ — the global parameter snapshot plus
whether the initialization header has already been delivered in this
session. -/
structure SessionState where
  cfg : GlobalState
  headerSent : Bool
deriving DecidableEq, Repr

/-- Modelled from the spec: processing of one popped work item by the
Scheduler (spec.md sections 4.3-4.5), missing from src/ — resolve the
effective parameters, clear consumed one-shot fields from global state,
invoke the encode engine on a filled item (prefixing the initialization
header exactly once per session, also delivered as a configuration
update), and complete an empty item with no output.  Every completed item
reports success with one processed worklet. -/
def processItem (s : SessionState) (item : WorkItem) :
    SessionState × WorkResult :=
  match item.buffer with
  | some frame =>
      let e := effective s.cfg item.tunings
      ({ cfg := consumeOneShot s.cfg, headerSent := true },
       { frameIndex := item.frameIndex, timestamp := item.timestamp,
         status := C2Status.C2_OK,
         buffers := (if s.headerSent then [] else headerUnits s.cfg) ++
           encodeFrame s.cfg.codec e frame,
         configUpdate := if s.headerSent then none else some (headerUnits s.cfg),
         workletsProcessed := 1,
         keyframe := e.keyRequest })
  | none =>
      (s,
       { frameIndex := item.frameIndex, timestamp := item.timestamp,
         status := C2Status.C2_OK, buffers := [], configUpdate := none,
         workletsProcessed := 1, keyframe := false })

/-- One scheduled unit as driven by the test harness `Encode`: an optional
global configuration change issued just before queueing (the
`BeforeQueueWork` hook using `config_vb`), then the work item itself. -/
structure Job where
  preConfig : List C2Param
  item : WorkItem
deriving DecidableEq, Repr

/-- Modelled from the spec: one scheduling step — a configuration change
takes effect atomically, attributed unambiguously to the next item
(spec.md section 5), then the item is processed. -/
def runJob (s : SessionState) (j : Job) : SessionState × WorkResult :=
  let cfg1 := (config_vb s.cfg j.preConfig).2.2
  processItem { cfg := cfg1, headerSent := s.headerSent } j.item

/-- Modelled from the spec: the Scheduler pulling items one at a time in
strict FIFO submission order and the Completion Notifier delivering one
result per item in that same order (spec.md sections 4.3 and 4.5). -/
def runJobs : SessionState → List Job → SessionState × List WorkResult
  | s, [] => (s, [])
  | s, j :: rest =>
      let step := runJob s j
      let conts := runJobs step.1 rest
      (conts.1, step.2 :: conts.2)

/-- Session start: `start()` begins a session in which the initialization
header has not been delivered yet. -/
def initSession (g : GlobalState) : SessionState :=
  { cfg := g, headerSent := false }

/-- The results delivered for a full start/submit-all/stop session over
the given jobs. -/
def encodeSession (g : GlobalState) (jobs : List Job) : List WorkResult :=
  (runJobs (initSession g) jobs).2

/-- The emitted bitstream of a session: the output units of all results
in delivery order (what the test `OnFrame` callbacks concatenate). -/
def bitstream (rs : List WorkResult) : List NalUnit :=
  (rs.map (fun r => r.buffers)).flatten

/-- Modelled from the spec: the result of flushing one queued-but-unstarted
work item when `stop()` is invoked (spec.md section 4.3) — reported with
not-found status, no output and no processed worklet. -/
def flushResult (item : WorkItem) : WorkResult :=
  { frameIndex := item.frameIndex, timestamp := item.timestamp,
    status := C2Status.C2_NOT_FOUND, buffers := [], configUpdate := none,
    workletsProcessed := 0, keyframe := false }

/-- The three callback channels of the Completion Notifier
(`onWorkDone_nb`, `onTripped_nb`, `onError_nb` of `C2Component::Listener`
in the test file). -/
inductive CallbackEvent where
  | workDone (r : WorkResult)
  | tripped
  | error (code : Nat)
deriving DecidableEq, Repr

/-- Modelled from the spec: `stop()` invoked after the first k submitted
items have started (spec.md section 4.3) — already-started items run to
completion and their results are delivered, queued-but-unstarted items are
removed and reported with not-found status; every report goes through the
work-done channel, never through the fatal-error or tripped channels. -/
def stopWhileRunning (g : GlobalState) (jobs : List Job) (k : Nat) :
    List CallbackEvent :=
  ((runJobs (initSession g) (jobs.take k)).2.map CallbackEvent.workDone) ++
  ((jobs.drop k).map (fun j => CallbackEvent.workDone (flushResult j.item)))

/-- Whether a callback event is a work-done delivery. -/
def isWorkDone : CallbackEvent → Bool
  | CallbackEvent.workDone _ => true
  | _ => false

/-- The statuses observed by the caller over a list of callback events
(the `status_set_` gathering of the StopWhileEncoding test). -/
def eventStatuses (es : List CallbackEvent) : List C2Status :=
  es.filterMap (fun e =>
    match e with
    | CallbackEvent.workDone r => some r.status
    | _ => none)

/-- Whether a job's work item carries an input frame ("filled"). -/
def isFilled (j : Job) : Bool := j.item.buffer.isSome

/-- Sequence indices of the filled items among the submitted jobs, in
submission order. -/
def filledIndices (jobs : List Job) : List Nat :=
  (jobs.filter isFilled).map (fun j => j.item.frameIndex)

/-- Sequence indices of the results delivered with output, in delivery
order (the test consumer treats a result as filled when
`buffers.size() != 0`). -/
def deliveredFilledIndices (rs : List WorkResult) : List Nat :=
  (rs.filter (fun r => !r.buffers.isEmpty)).map (fun r => r.frameIndex)

/-- Counting IDR slices in a list of emitted units, mirroring the test
helper `CountIdrSlices`. -/
def countIdrSlices (c : Codec) (units : List NalUnit) : Nat :=
  units.countP (fun u => decide (u.unitType = idrType c))

/-- Extracting the concatenated VPS (HEVC only) + SPS + PPS units from an
emitted bitstream, mirroring the test helper `ExtractHeader`. -/
def extractHeader (c : Codec) (units : List NalUnit) : List NalUnit :=
  (match c with
   | Codec.avc => []
   | Codec.hevc => units.filter (fun u => decide (u.unitType = vpsType))) ++
  units.filter (fun u => decide (u.unitType = spsType c)) ++
  units.filter (fun u => decide (u.unitType = ppsType c))

/-- The header payloads delivered through results' configuration-update
lists (the `C2StreamInitDataInfo` updates the EncodeHeaderSupplied test
collects). -/
def headerUpdates (rs : List WorkResult) : List (List NalUnit) :=
  rs.filterMap (fun r => r.configUpdate)

/-- One job of the IntraRefresh test schedule: a filled item with frame
index i; when b is set, the one-shot forced-keyframe field is applied to
it — through the global-config path when path is true (the test's
`config_vb` branch), through an item-local tuning when path is false (the
test's `C2Work` branch). -/
def mkOneShotJob (path : Bool) (i : Nat) (b : Bool) : Job :=
  { preConfig := if path && b then [C2Param.intraRefresh true] else [],
    item := { frameIndex := i, timestamp := i * 33333, eos := false,
              buffer := some [i],
              tunings := if !path && b then [C2Param.intraRefresh true] else [] } }

/-- The jobs built from a list of one-shot application flags, with frame
indices starting at i0. -/
def mkOneShotJobs (path : Bool) (i0 : Nat) : List Bool → List Job
  | [] => []
  | b :: rest => mkOneShotJob path i0 b :: mkOneShotJobs path (i0 + 1) rest

/-- The schedule applying the one-shot field to exactly the item with
index pos, over F filled items. -/
def oneShotSchedule (path : Bool) (pos F : Nat) : List Job :=
  mkOneShotJobs path 0 ((List.range F).map (fun i => decide (i = pos)))

/-- The IntraRefresh test schedule: the one-shot field applied to every
item whose index is a multiple of d, over F filled items. -/
def idrSchedule (path : Bool) (d F : Nat) : List Job :=
  mkOneShotJobs path 0 ((List.range F).map (fun i => decide (i % d = 0)))

/-- A filled work item with frame index i and no tunings, as built by the
test helper `PrepareWork` (used to instantiate witness checks). -/
def sampleFilledJob (i : Nat) : Job :=
  { preConfig := [],
    item := { frameIndex := i, timestamp := i * 33333, eos := false,
              buffer := some [i], tunings := [] } }

/-- An empty work item (no input frame) with frame index i, as built by
the EncodeEmptyWorks test (used to instantiate witness checks). -/
def sampleEmptyJob (i : Nat) : Job :=
  { preConfig := [],
    item := { frameIndex := i, timestamp := i * 33333, eos := true,
              buffer := none, tunings := [] } }

/-! Helper lemmas about the model. -/

theorem config_vb_nil (g : GlobalState) : config_vb g [] = (C2Status.C2_OK, [], g) := rfl

theorem applyParam_codec (g : GlobalState) (p : C2Param) :
    (applyParam g p).codec = g.codec := by
  unfold applyParam
  split
  · cases p <;> rfl
  · rfl

theorem foldl_applyParam_codec (ps : List C2Param) : ∀ g : GlobalState,
    (ps.foldl applyParam g).codec = g.codec := by
  induction ps with
  | nil => intro g; rfl
  | cons p rest ih => intro g; rw [List.foldl_cons, ih, applyParam_codec]

theorem config_vb_codec (g : GlobalState) (ps : List C2Param) :
    ((config_vb g ps).2.2).codec = g.codec := foldl_applyParam_codec ps g

theorem consumeOneShot_eq (g : GlobalState) (h : g.intraRefresh = false) :
    consumeOneShot g = g := by
  cases g
  simp_all [consumeOneShot]

/-- C2: start() in STOPPED succeeds and moves to RUNNING; start() while
RUNNING fails with InvalidState (C2_BAD_STATE) leaving the state RUNNING;
symmetrically stop() from RUNNING succeeds and moves to STOPPED, and
stop() while STOPPED fails with C2_BAD_STATE leaving the state STOPPED.
The four equations cover both states, hence every interleaving of
start/stop calls. -/
theorem c2_lifecycle_state_machine :
    start ComponentState.STOPPED = (C2Status.C2_OK, ComponentState.RUNNING) ∧
    start ComponentState.RUNNING = (C2Status.C2_BAD_STATE, ComponentState.RUNNING) ∧
    stop ComponentState.RUNNING = (C2Status.C2_OK, ComponentState.STOPPED) ∧
    stop ComponentState.STOPPED = (C2Status.C2_BAD_STATE, ComponentState.STOPPED) :=
  ⟨rfl, rfl, rfl, rfl⟩

/-- C4: a configuration request containing a key unknown to the component
returns exactly one failure, that failure refers to the whole parameter,
carries no value-domain description (supported-values field null), and the
request leaves component state completely unchanged.  The aggregate status
is C2_BAD_INDEX. -/
theorem c4_unsupported_param_single_failure (g : GlobalState) (index : Nat) (v : Int) :
    config_vb g [C2Param.unsupported index v] =
      (C2Status.C2_BAD_INDEX,
       [{ field := FieldId.wholeParam index, failure := SettingFailure.BAD_TYPE,
          values := none, conflicts := [] }],
       g) := rfl

/-- C5: a request setting all three validated sub-fields of FrameQP to
out-of-range values yields exactly three field-level failures, for qp_i,
qp_p and qp_b in order, each citing the declared inclusive range
min 1, max 51, step 1, and the component state (hence the previously
accepted FrameQP value) is unchanged after the call. -/
theorem c5_frameQP_three_failures (g : GlobalState) (i p b : Nat)
    (hi : qpValid i = false) (hp : qpValid p = false) (hb : qpValid b = false) :
    config_vb g [C2Param.frameQP i p b] =
      (C2Status.C2_BAD_VALUE,
       [qpFailure FieldId.qp_i, qpFailure FieldId.qp_p, qpFailure FieldId.qp_b],
       g) := by
  simp [config_vb, validateParam, applyParam, hi, hp, hb, qpFailure]

/-- C5 witness: the theorem instantiated at QP value 100 on the default
component state, the failing input of the StaticFrameQP test. -/
theorem c5_frameQP_three_failures_witness :
    qpValid 100 = false ∧
    config_vb defaultGlobalState [C2Param.frameQP 100 100 100] =
      (C2Status.C2_BAD_VALUE,
       [qpFailure FieldId.qp_i, qpFailure FieldId.qp_p, qpFailure FieldId.qp_b],
       defaultGlobalState) :=
  ⟨by decide,
   c5_frameQP_three_failures defaultGlobalState 100 100 100
     (by decide) (by decide) (by decide)⟩

/-- C7: query is determined solely by the most recently successfully
applied configuration: after applying a FrameQP value that passed
validation and then requesting one that fails validation, query returns
the applied triple and not the merely requested one; the failing request
changes no queried value of any key; and two consecutive query calls with
no intervening configuration change return identical values. -/
theorem c7_query_last_applied (g : GlobalState) (i p b i2 p2 b2 : Nat) (k : Key)
    (hvalid : validateParam (C2Param.frameQP i p b) = [])
    (hinvalid : validateParam (C2Param.frameQP i2 p2 b2) ≠ []) :
    query ((config_vb ((config_vb g [C2Param.frameQP i p b]).2.2)
        [C2Param.frameQP i2 p2 b2]).2.2) Key.frameQP = QueryVal.qp i p b ∧
    query ((config_vb ((config_vb g [C2Param.frameQP i p b]).2.2)
        [C2Param.frameQP i2 p2 b2]).2.2) k =
      query ((config_vb g [C2Param.frameQP i p b]).2.2) k ∧
    query ((config_vb g [C2Param.frameQP i p b]).2.2) k =
      query ((config_vb g [C2Param.frameQP i p b]).2.2) k := by
  have h1 : (config_vb g [C2Param.frameQP i p b]).2.2 =
      { g with qp_i := i, qp_p := p, qp_b := b } := by
    simp [config_vb, applyParam, hvalid]
  have h2 : ∀ g1 : GlobalState,
      (config_vb g1 [C2Param.frameQP i2 p2 b2]).2.2 = g1 := by
    intro g1
    have hne : (validateParam (C2Param.frameQP i2 p2 b2)).isEmpty = false := by
      cases hh : validateParam (C2Param.frameQP i2 p2 b2) with
      | nil => exact absurd hh hinvalid
      | cons a l => rfl
    simp [config_vb, applyParam, hne]
  refine ⟨?_, ?_, rfl⟩
  · rw [h2, h1]; rfl
  · rw [h2]

/-- C7 witness: the theorem instantiated with the StaticFrameQP test run
values — QP 25 applied successfully, then QP 100 rejected. -/
theorem c7_query_last_applied_witness :
    validateParam (C2Param.frameQP 25 25 25) = [] ∧
    validateParam (C2Param.frameQP 100 100 100) ≠ [] ∧
    query ((config_vb ((config_vb defaultGlobalState [C2Param.frameQP 25 25 25]).2.2)
        [C2Param.frameQP 100 100 100]).2.2) Key.frameQP = QueryVal.qp 25 25 25 :=
  ⟨by decide, by decide,
   (c7_query_last_applied defaultGlobalState 25 25 25 100 100 100 Key.frameQP
     (by decide) (by decide)).1⟩

theorem isEmpty_append_singleton {α : Type} (xs : List α) (a : α) :
    (xs ++ [a]).isEmpty = false := by
  cases xs <;> rfl

theorem processItem_fields (s : SessionState) (item : WorkItem) :
    ((processItem s item).2).status = C2Status.C2_OK ∧
    ((processItem s item).2).workletsProcessed = 1 ∧
    ((processItem s item).2).frameIndex = item.frameIndex ∧
    ((processItem s item).2).timestamp = item.timestamp := by
  cases h : item.buffer <;> simp [processItem, h]

theorem runJob_fields (s : SessionState) (j : Job) :
    ((runJob s j).2).status = C2Status.C2_OK ∧
    ((runJob s j).2).workletsProcessed = 1 ∧
    ((runJob s j).2).frameIndex = j.item.frameIndex ∧
    ((runJob s j).2).timestamp = j.item.timestamp := by
  unfold runJob
  exact processItem_fields _ _

theorem runJobs_mem_fields (jobs : List Job) : ∀ s : SessionState,
    ∀ r ∈ (runJobs s jobs).2,
      r.status = C2Status.C2_OK ∧ r.workletsProcessed = 1 := by
  induction jobs with
  | nil => intro s r hr; simp [runJobs] at hr
  | cons j rest ih =>
      intro s r hr
      simp only [runJobs, List.mem_cons] at hr
      rcases hr with h | h
      · subst h; exact ⟨(runJob_fields s j).1, (runJob_fields s j).2.1⟩
      · exact ih _ r h

theorem runJobs_statuses (jobs : List Job) : ∀ s : SessionState,
    ((runJobs s jobs).2).map (fun r => r.status) =
      List.replicate jobs.length C2Status.C2_OK := by
  induction jobs with
  | nil => intro s; rfl
  | cons j rest ih =>
      intro s
      simp only [runJobs, List.map_cons, List.length_cons, List.replicate_succ]
      rw [(runJob_fields s j).1, ih]

theorem runJobs_map_frameIndex (jobs : List Job) : ∀ s : SessionState,
    ((runJobs s jobs).2).map (fun r => r.frameIndex) =
      jobs.map (fun j => j.item.frameIndex) := by
  induction jobs with
  | nil => intro s; rfl
  | cons j rest ih =>
      intro s
      simp only [runJobs, List.map_cons]
      rw [(runJob_fields s j).2.2.1, ih]

theorem runJobs_length (jobs : List Job) (s : SessionState) :
    ((runJobs s jobs).2).length = jobs.length := by
  have h := runJobs_map_frameIndex jobs s
  have := congrArg List.length h
  simpa using this

theorem runJobs_append (xs ys : List Job) : ∀ s : SessionState,
    runJobs s (xs ++ ys) =
      ((runJobs (runJobs s xs).1 ys).1,
       (runJobs s xs).2 ++ (runJobs (runJobs s xs).1 ys).2) := by
  induction xs with
  | nil => intro s; simp [runJobs]
  | cons x rest ih =>
      intro s
      simp only [List.cons_append, runJobs, List.append_eq, ih]

theorem bitstream_append (rs1 rs2 : List WorkResult) :
    bitstream (rs1 ++ rs2) = bitstream rs1 ++ bitstream rs2 := by
  simp [bitstream]

theorem runJobs_empty_bitstream (jobs : List Job)
    (hemp : ∀ j ∈ jobs, j.item.buffer = none) : ∀ s : SessionState,
    bitstream (runJobs s jobs).2 = [] := by
  induction jobs with
  | nil => intro s; rfl
  | cons j rest ih =>
      intro s
      have hj : j.item.buffer = none := hemp j (by simp)
      have hrest : ∀ j2 ∈ rest, j2.item.buffer = none := by
        intro j2 h2; exact hemp j2 (by simp [h2])
      simp only [runJobs, bitstream, List.map_cons, List.flatten_cons]
      have hbuf : ((runJob s j).2).buffers = [] := by
        simp [runJob, processItem, hj]
      rw [hbuf]
      simpa [bitstream] using ih hrest (runJob s j).1

theorem processItem_filled_nonempty (s : SessionState) (item : WorkItem)
    (f : List Nat) (h : item.buffer = some f) :
    ((processItem s item).2).buffers.isEmpty = false := by
  simp only [processItem, h, encodeFrame]
  exact isEmpty_append_singleton _ _

theorem deliveredFilledIndices_cons (r : WorkResult) (rs : List WorkResult) :
    deliveredFilledIndices (r :: rs) =
      if r.buffers.isEmpty then deliveredFilledIndices rs
      else r.frameIndex :: deliveredFilledIndices rs := by
  cases h : r.buffers.isEmpty <;> simp [deliveredFilledIndices, List.filter_cons, h]

theorem filledIndices_cons (j : Job) (rest : List Job) :
    filledIndices (j :: rest) =
      if isFilled j then j.item.frameIndex :: filledIndices rest
      else filledIndices rest := by
  cases h : isFilled j <;> simp [filledIndices, List.filter_cons, h]

theorem runJobs_filled_order (jobs : List Job) : ∀ s : SessionState,
    deliveredFilledIndices (runJobs s jobs).2 = filledIndices jobs := by
  induction jobs with
  | nil => intro s; rfl
  | cons j rest ih =>
      intro s
      simp only [runJobs]
      rw [deliveredFilledIndices_cons, filledIndices_cons]
      cases hb : j.item.buffer with
      | some f =>
          have hne : ((runJob s j).2).buffers.isEmpty = false := by
            unfold runJob
            exact processItem_filled_nonempty _ _ f hb
          have hfil : isFilled j = true := by simp [isFilled, hb]
          rw [hne, hfil, if_neg (by simp), if_pos rfl,
            (runJob_fields s j).2.2.1, ih]
      | none =>
          have hne : ((runJob s j).2).buffers.isEmpty = true := by
            simp [runJob, processItem, hb]
          have hfil : isFilled j = false := by simp [isFilled, hb]
          rw [hne, hfil, if_pos rfl, if_neg (by simp), ih]

theorem eventStatuses_append (es1 es2 : List CallbackEvent) :
    eventStatuses (es1 ++ es2) = eventStatuses es1 ++ eventStatuses es2 := by
  simp [eventStatuses]

theorem eventStatuses_workDone (rs : List WorkResult) :
    eventStatuses (rs.map CallbackEvent.workDone) =
      rs.map (fun r => r.status) := by
  induction rs with
  | nil => rfl
  | cons r rest ih => simp [eventStatuses, List.filterMap_cons] at ih ⊢; exact ih

theorem eventStatuses_flushed (js : List Job) :
    eventStatuses (js.map (fun j => CallbackEvent.workDone (flushResult j.item))) =
      List.replicate js.length C2Status.C2_NOT_FOUND := by
  induction js with
  | nil => rfl
  | cons j rest ih =>
      simp [eventStatuses, List.filterMap_cons, flushResult,
        List.replicate_succ] at ih ⊢
      exact ih

/-- C1: for every sequence of work items submitted in one session with no
intervening stop(), the results delivered with output (those of the items
that carried an input frame) arrive in exactly the submission order: the
delivered sequence indices of filled results equal the submitted filled
items' indices as lists, so index i is delivered before index j whenever
item i was submitted before item j. -/
theorem c1_completion_order_matches_submission (g : GlobalState) (jobs : List Job) :
    deliveredFilledIndices (encodeSession g jobs) = filledIndices jobs :=
  runJobs_filled_order jobs (initSession g)

/-- C3: when stop() is called with k items started out of a longer queue,
every already-started item completes and is reported with success, every
queued-but-unstarted item is reported with not-found (Flushed) status, no
report goes through the fatal-error or tripped callback channels, and the
set of statuses observed over the run is exactly success and not-found —
never a cancelled or fatal status. -/
theorem c3_stop_while_encoding (g : GlobalState) (jobs : List Job) (k : Nat)
    (h1 : 0 < k) (h2 : k < jobs.length) :
    (∀ e ∈ stopWhileRunning g jobs k, isWorkDone e = true) ∧
    eventStatuses (stopWhileRunning g jobs k) =
      List.replicate k C2Status.C2_OK ++
      List.replicate (jobs.length - k) C2Status.C2_NOT_FOUND ∧
    C2Status.C2_OK ∈ eventStatuses (stopWhileRunning g jobs k) ∧
    C2Status.C2_NOT_FOUND ∈ eventStatuses (stopWhileRunning g jobs k) ∧
    (∀ st ∈ eventStatuses (stopWhileRunning g jobs k),
      st = C2Status.C2_OK ∨ st = C2Status.C2_NOT_FOUND) := by
  have hstat : eventStatuses (stopWhileRunning g jobs k) =
      List.replicate k C2Status.C2_OK ++
      List.replicate (jobs.length - k) C2Status.C2_NOT_FOUND := by
    unfold stopWhileRunning
    rw [eventStatuses_append, eventStatuses_workDone, runJobs_statuses,
      eventStatuses_flushed, List.length_take, List.length_drop,
      Nat.min_eq_left (Nat.le_of_lt h2)]
  refine ⟨?_, hstat, ?_, ?_, ?_⟩
  · intro e he
    unfold stopWhileRunning at he
    rcases List.mem_append.1 he with h | h <;>
      rcases List.mem_map.1 h with ⟨x, _, rfl⟩ <;> rfl
  · rw [hstat]
    exact List.mem_append.2 (Or.inl
      (List.mem_replicate.2 ⟨Nat.pos_iff_ne_zero.1 h1, rfl⟩))
  · rw [hstat]
    exact List.mem_append.2 (Or.inr
      (List.mem_replicate.2 ⟨Nat.sub_ne_zero_of_lt h2, rfl⟩))
  · intro st hst
    rw [hstat] at hst
    rcases List.mem_append.1 hst with h | h
    · exact Or.inl (List.eq_of_mem_replicate h)
    · exact Or.inr (List.eq_of_mem_replicate h)

/-- C3 witness: the theorem instantiated on a three-item queue with one
item started before stop(). -/
theorem c3_stop_while_encoding_witness :
    0 < 1 ∧ 1 < ([sampleFilledJob 0, sampleFilledJob 1, sampleFilledJob 2] : List Job).length ∧
    (C2Status.C2_OK ∈ eventStatuses
      (stopWhileRunning defaultGlobalState
        [sampleFilledJob 0, sampleFilledJob 1, sampleFilledJob 2] 1) ∧
     C2Status.C2_NOT_FOUND ∈ eventStatuses
      (stopWhileRunning defaultGlobalState
        [sampleFilledJob 0, sampleFilledJob 1, sampleFilledJob 2] 1)) :=
  ⟨by decide, by decide,
   (c3_stop_while_encoding defaultGlobalState
      [sampleFilledJob 0, sampleFilledJob 1, sampleFilledJob 2] 1
      (by decide) (by decide)).2.2.1,
   (c3_stop_while_encoding defaultGlobalState
      [sampleFilledJob 0, sampleFilledJob 1, sampleFilledJob 2] 1
      (by decide) (by decide)).2.2.2.1⟩

/-- C8: a work item submitted with no input frame is accepted, accounted
for, and receives exactly one completion result carrying its own sequence
index (results map one-to-one onto submitted items, each completed with
success and one processed worklet); and appending any number of trailing
empty items (such as the 0, 1 or 2 end-of-stream empties of the
EncodeEmptyWorks test) leaves the encoded bitstream of the filled items
unchanged. -/
theorem c8_empty_works_accounted (g : GlobalState) (jobs empties : List Job)
    (hemp : ∀ j ∈ empties, j.item.buffer = none) :
    ((encodeSession g jobs).map (fun r => r.frameIndex) =
      jobs.map (fun j => j.item.frameIndex)) ∧
    (encodeSession g jobs).length = jobs.length ∧
    (∀ r ∈ encodeSession g jobs,
      r.status = C2Status.C2_OK ∧ r.workletsProcessed = 1) ∧
    bitstream (encodeSession g (jobs ++ empties)) =
      bitstream (encodeSession g jobs) := by
  refine ⟨runJobs_map_frameIndex jobs _, runJobs_length jobs _,
    runJobs_mem_fields jobs _, ?_⟩
  unfold encodeSession
  rw [runJobs_append]
  simp only []
  rw [bitstream_append, runJobs_empty_bitstream empties hemp, List.append_nil]

/-- C8 witness: the theorem instantiated on one filled item followed by
two trailing empty items. -/
theorem c8_empty_works_accounted_witness :
    (∀ j ∈ [sampleEmptyJob 1, sampleEmptyJob 2], j.item.buffer = none) ∧
    bitstream (encodeSession defaultGlobalState
        ([sampleFilledJob 0] ++ [sampleEmptyJob 1, sampleEmptyJob 2])) =
      bitstream (encodeSession defaultGlobalState [sampleFilledJob 0]) :=
  ⟨by decide,
   (c8_empty_works_accounted defaultGlobalState [sampleFilledJob 0]
      [sampleEmptyJob 1, sampleEmptyJob 2] (by decide)).2.2.2⟩

theorem runJobs_mem_irrelevant : ∀ (jobs : List Job),
    (∀ j ∈ jobs, j.preConfig = []) →
    ∀ (cfg : GlobalState) (hs : Bool) (m1 m2 : Nat),
    (runJobs { cfg := { cfg with memoryType := m1 }, headerSent := hs } jobs).2 =
      (runJobs { cfg := { cfg with memoryType := m2 }, headerSent := hs } jobs).2 := by
  intro jobs
  induction jobs with
  | nil => intro _ cfg hs m1 m2; rfl
  | cons j rest ih =>
      intro hcfg cfg hs m1 m2
      have hrest : ∀ j2 ∈ rest, j2.preConfig = [] :=
        fun j2 h2 => hcfg j2 (List.mem_cons_of_mem _ h2)
      obtain ⟨pc, fi, ts, eos, buf, tn⟩ := j
      have hj : pc = [] := hcfg _ (List.mem_cons_self _ _)
      subst hj
      cases buf with
      | some f =>
          simp only [runJobs]
          refine congrArg₂ List.cons rfl ?_
          exact ih hrest (consumeOneShot cfg) true m1 m2
      | none =>
          simp only [runJobs]
          refine congrArg₂ List.cons rfl ?_
          exact ih hrest cfg hs m1 m2

theorem runJobs_cfg_invariant : ∀ (jobs : List Job),
    (∀ j ∈ jobs, j.preConfig = []) →
    ∀ (cfg : GlobalState) (hs : Bool), cfg.intraRefresh = false →
    (runJobs { cfg := cfg, headerSent := hs } jobs).1.cfg = cfg := by
  intro jobs
  induction jobs with
  | nil => intro _ cfg hs _; rfl
  | cons j rest ih =>
      intro hcfg cfg hs h0
      have hrest : ∀ j2 ∈ rest, j2.preConfig = [] :=
        fun j2 h2 => hcfg j2 (List.mem_cons_of_mem _ h2)
      obtain ⟨pc, fi, ts, eos, buf, tn⟩ := j
      have hj : pc = [] := hcfg _ (List.mem_cons_self _ _)
      subst hj
      cases buf with
      | some f =>
          exact Eq.trans (ih hrest (consumeOneShot cfg) true rfl)
            (consumeOneShot_eq cfg h0)
      | none =>
          exact ih hrest cfg hs h0

/-- C9: encoding is deterministic and memory-type independent — with the
same configuration and the same submitted frames, the session results are
identical whether the input frames are configured for system memory or for
graphics memory (any two memory-type values), and a repeated run on the
same component (whose global configuration the first run left in place)
delivers exactly the same results, hence a bit-exact identical
bitstream. -/
theorem c9_deterministic_bit_exact (g : GlobalState) (jobs : List Job)
    (m1 m2 : Nat) (hcfg : ∀ j ∈ jobs, j.preConfig = [])
    (h0 : g.intraRefresh = false) :
    encodeSession { g with memoryType := m1 } jobs =
      encodeSession { g with memoryType := m2 } jobs ∧
    encodeSession ((runJobs (initSession g) jobs).1.cfg) jobs =
      encodeSession g jobs := by
  constructor
  · exact runJobs_mem_irrelevant jobs hcfg g false m1 m2
  · show encodeSession ((runJobs { cfg := g, headerSent := false } jobs).1.cfg)
        jobs = encodeSession g jobs
    rw [runJobs_cfg_invariant jobs hcfg g false h0]

/-- C9 witness: the theorem instantiated on two filled items with system
memory (0) against graphics memory (1) on the default component state. -/
theorem c9_deterministic_bit_exact_witness :
    (∀ j ∈ [sampleFilledJob 0, sampleFilledJob 1], j.preConfig = []) ∧
    defaultGlobalState.intraRefresh = false ∧
    encodeSession { defaultGlobalState with memoryType := 0 }
        [sampleFilledJob 0, sampleFilledJob 1] =
      encodeSession { defaultGlobalState with memoryType := 1 }
        [sampleFilledJob 0, sampleFilledJob 1] :=
  ⟨by decide, by decide,
   (c9_deterministic_bit_exact defaultGlobalState
      [sampleFilledJob 0, sampleFilledJob 1] 0 1 (by decide) (by decide)).1⟩

theorem bitstream_cons (r : WorkResult) (rs : List WorkResult) :
    bitstream (r :: rs) = r.buffers ++ bitstream rs := by
  simp [bitstream]

theorem countIdrSlices_append (c : Codec) (xs ys : List NalUnit) :
    countIdrSlices c (xs ++ ys) =
      countIdrSlices c xs + countIdrSlices c ys := by
  simp [countIdrSlices, List.countP_append]

theorem countIdr_headerUnits (g : GlobalState) :
    countIdrSlices g.codec (headerUnits g) = 0 := by
  obtain ⟨c, rc, fr, br, qi, qpp, qb, pr, lv, mt, ir⟩ := g
  cases c <;> rfl

theorem countIdr_slice_unit (c : Codec) (b : Bool) (pl : List Nat) :
    countIdrSlices c
        [{ unitType := if b then idrType c else nonIdrType, payload := pl }] =
      if b then 1 else 0 := by
  cases b <;> cases c <;> rfl

theorem consumeOneShot_codec (g : GlobalState) :
    (consumeOneShot g).codec = g.codec := rfl

theorem runJob_oneShot_decomp (path b : Bool) (i0 : Nat) (cfg : GlobalState)
    (hs : Bool) (h0 : cfg.intraRefresh = false) :
    ∃ cfg1 : GlobalState, cfg1.codec = cfg.codec ∧
      runJob { cfg := cfg, headerSent := hs } (mkOneShotJob path i0 b) =
        ({ cfg := consumeOneShot cfg1, headerSent := true },
         { frameIndex := i0, timestamp := i0 * 33333, status := C2Status.C2_OK,
           buffers := (if hs then [] else headerUnits cfg1) ++
             [{ unitType := if b then idrType cfg1.codec else nonIdrType,
                payload := [i0] }],
           configUpdate := if hs then none else some (headerUnits cfg1),
           workletsProcessed := 1, keyframe := b }) := by
  cases path <;> cases b
  · exact ⟨cfg, rfl, by
      simp [runJob, mkOneShotJob, processItem, config_vb, effective, snapshot,
        encodeFrame, h0]⟩
  · exact ⟨cfg, rfl, by
      simp [runJob, mkOneShotJob, processItem, config_vb, effective, snapshot,
        applyTuning, encodeFrame]⟩
  · exact ⟨cfg, rfl, by
      simp [runJob, mkOneShotJob, processItem, config_vb, effective, snapshot,
        encodeFrame, h0]⟩
  · exact ⟨{ cfg with intraRefresh := true }, rfl, by
      simp [runJob, mkOneShotJob, processItem, config_vb, applyParam,
        validateParam, effective, snapshot, encodeFrame]⟩

theorem runJobs_oneShot : ∀ (bs : List Bool) (path : Bool) (i0 : Nat)
    (s : SessionState), s.cfg.intraRefresh = false →
    (((runJobs s (mkOneShotJobs path i0 bs)).2).map (fun r => r.keyframe) = bs) ∧
    (countIdrSlices s.cfg.codec
        (bitstream (runJobs s (mkOneShotJobs path i0 bs)).2) = bs.countP id) ∧
    ((runJobs s (mkOneShotJobs path i0 bs)).1.cfg.intraRefresh = false) := by
  intro bs
  induction bs with
  | nil => intro path i0 s h0; exact ⟨rfl, rfl, h0⟩
  | cons b rest ih =>
      intro path i0 s h0
      obtain ⟨cfg, hs⟩ := s
      obtain ⟨cfg1, hcodec, heq⟩ := runJob_oneShot_decomp path b i0 cfg hs h0
      have ihr := ih path (i0 + 1)
        { cfg := consumeOneShot cfg1, headerSent := true } rfl
      simp only [mkOneShotJobs, runJobs, heq]
      refine ⟨?_, ?_, ihr.2.2⟩
      · rw [List.map_cons]
        exact congrArg₂ List.cons rfl ihr.1
      · have h2 := ihr.2.1
        rw [consumeOneShot_codec, hcodec] at h2
        have hhdr : countIdrSlices cfg.codec
            (if hs then [] else headerUnits cfg1) = 0 := by
          cases hs
          · exact hcodec ▸ countIdr_headerUnits cfg1
          · rfl
        have hslice : countIdrSlices cfg.codec
            [{ unitType := if b then idrType cfg1.codec else nonIdrType,
               payload := [i0] }] = if b then 1 else 0 := by
          rw [hcodec]
          exact countIdr_slice_unit cfg.codec b [i0]
        rw [bitstream_cons, countIdrSlices_append, countIdrSlices_append,
          hhdr, h2, hslice, List.countP_cons]
        cases b <;> simp [Nat.add_comm]

theorem countP_mod_range (d : Nat) : ∀ F : Nat, 0 < F →
    List.countP (fun i => decide (i % d = 0)) (List.range F) =
      (F - 1) / d + 1 := by
  intro F
  induction F with
  | zero => intro h; omega
  | succ n ih =>
      intro _
      rcases Nat.eq_zero_or_pos n with hn | hn
      · subst hn
        simp [List.range_succ]
      · rw [List.range_succ, List.countP_append, ih hn]
        have hsub : n - 1 + 1 = n := Nat.succ_pred_eq_of_pos hn
        have hdiv : n / d = (n - 1) / d + if d ∣ n then 1 else 0 := by
          conv_lhs => rw [← hsub]
          rw [Nat.succ_div, hsub]
        have hc : List.countP (fun i => decide (i % d = 0)) [n] =
            if d ∣ n then 1 else 0 := by
          simp only [List.countP_cons, List.countP_nil, Nat.zero_add]
          by_cases hdd : d ∣ n
          · have hm : n % d = 0 := Nat.dvd_iff_mod_eq_zero.1 hdd
            simp [hm, hdd]
          · have hm : n % d ≠ 0 := fun hm => hdd (Nat.dvd_iff_mod_eq_zero.2 hm)
            simp [hm, hdd]
        rw [hc, Nat.succ_sub_one, hdiv]
        omega

/-- C6: a one-shot forced-keyframe field applied to item K — whether via
the global-config path or via item-local tuning — affects only item K's
effective encode parameters: the delivered sync-frame flags over F items
are true exactly at K (so item K+1 is unaffected unless it is explicitly
reapplied, and so are all other items); and requesting a keyframe on every
item whose index is a multiple of d over F items yields exactly
(F-1)/d + 1 IDR slices in the emitted bitstream. -/
theorem c6_one_shot_scoped_to_item (g : GlobalState) (path : Bool)
    (K F d : Nat) (h0 : g.intraRefresh = false) (hF : 0 < F) (_hd : 0 < d) :
    ((encodeSession g (oneShotSchedule path K F)).map (fun r => r.keyframe) =
      (List.range F).map (fun i => decide (i = K))) ∧
    countIdrSlices g.codec
        (bitstream (encodeSession g (idrSchedule path d F))) =
      (F - 1) / d + 1 := by
  constructor
  · exact (runJobs_oneShot ((List.range F).map (fun i => decide (i = K)))
      path 0 (initSession g) h0).1
  · have h := (runJobs_oneShot ((List.range F).map (fun i => decide (i % d = 0)))
      path 0 (initSession g) h0).2.1
    rw [List.countP_map] at h
    have hcomp : (id ∘ fun i => decide (i % d = 0)) =
        (fun i => decide (i % d = 0)) := rfl
    rw [hcomp, countP_mod_range d F hF] at h
    exact h

/-- C6 witness: the theorem instantiated with the one-shot field on item 1
out of 4 items and keyframe distance 2, on the default component state,
through the global-config path. -/
theorem c6_one_shot_scoped_to_item_witness :
    defaultGlobalState.intraRefresh = false ∧ 0 < 4 ∧ 0 < 2 ∧
    ((encodeSession defaultGlobalState (oneShotSchedule true 1 4)).map
        (fun r => r.keyframe) =
      (List.range 4).map (fun i => decide (i = 1))) ∧
    countIdrSlices defaultGlobalState.codec
        (bitstream (encodeSession defaultGlobalState (idrSchedule true 2 4))) =
      (4 - 1) / 2 + 1 :=
  ⟨by decide, by decide, by decide,
   (c6_one_shot_scoped_to_item defaultGlobalState true 1 4 2
      (by decide) (by decide) (by decide)).1,
   (c6_one_shot_scoped_to_item defaultGlobalState true 1 4 2
      (by decide) (by decide) (by decide)).2⟩

theorem headerUpdates_cons_none (r : WorkResult) (rs : List WorkResult)
    (h : r.configUpdate = none) :
    headerUpdates (r :: rs) = headerUpdates rs := by
  simp [headerUpdates, List.filterMap_cons, h]

theorem headerUpdates_cons_some (r : WorkResult) (rs : List WorkResult)
    (hd : List NalUnit) (h : r.configUpdate = some hd) :
    headerUpdates (r :: rs) = hd :: headerUpdates rs := by
  simp [headerUpdates, List.filterMap_cons, h]

theorem headerUpdates_length (rs : List WorkResult) :
    (headerUpdates rs).length =
      rs.countP (fun r => r.configUpdate.isSome) := by
  induction rs with
  | nil => rfl
  | cons r rest ih =>
      cases h : r.configUpdate with
      | none =>
          rw [headerUpdates_cons_none r rest h]
          simp [List.countP_cons, h, ih]
      | some hd =>
          rw [headerUpdates_cons_some r rest hd h]
          simp [List.countP_cons, h, ih]

theorem filter_slices_eq_nil (c : Codec) (t : Nat) (ys : List NalUnit)
    (ht : t = vpsType ∨ t = spsType c ∨ t = ppsType c)
    (hys : ∀ u ∈ ys, u.unitType = nonIdrType ∨ u.unitType = idrType c) :
    ys.filter (fun u => decide (u.unitType = t)) = [] := by
  rw [List.filter_eq_nil_iff]
  intro u hu
  rcases hys u hu with h | h <;> rcases ht with ht | ht | ht <;> subst ht <;>
    cases c <;>
    simp [h, nonIdrType, idrType, spsType, ppsType, vpsType]

theorem extractHeader_append_slices (c : Codec) (xs ys : List NalUnit)
    (hys : ∀ u ∈ ys, u.unitType = nonIdrType ∨ u.unitType = idrType c) :
    extractHeader c (xs ++ ys) = extractHeader c xs := by
  have hsps := filter_slices_eq_nil c (spsType c) ys (Or.inr (Or.inl rfl)) hys
  have hpps := filter_slices_eq_nil c (ppsType c) ys (Or.inr (Or.inr rfl)) hys
  cases c with
  | avc =>
      simp only [extractHeader, List.filter_append, hsps, hpps, List.append_nil]
  | hevc =>
      have hvps := filter_slices_eq_nil Codec.hevc vpsType ys (Or.inl rfl) hys
      simp only [extractHeader, List.filter_append, hsps, hpps, hvps,
        List.append_nil]

theorem extractHeader_headerUnits (g : GlobalState) :
    extractHeader g.codec (headerUnits g) = headerUnits g := by
  obtain ⟨c, rc, fr, br, qi, qpp, qb, pr, lv, mt, ir⟩ := g
  cases c <;> rfl

theorem runJobs_postHeader : ∀ (jobs : List Job) (s : SessionState),
    s.headerSent = true →
    headerUpdates (runJobs s jobs).2 = [] ∧
    (∀ u ∈ bitstream (runJobs s jobs).2,
      u.unitType = nonIdrType ∨ u.unitType = idrType s.cfg.codec) := by
  intro jobs
  induction jobs with
  | nil =>
      intro s _
      exact ⟨rfl, by intro u hu; simp [runJobs, bitstream] at hu⟩
  | cons j rest ih =>
      intro s hsent
      obtain ⟨cfg, hs⟩ := s
      change hs = true at hsent
      subst hsent
      obtain ⟨pc, fi, ts, eos, buf, tn⟩ := j
      have hcodec : ((config_vb cfg pc).2.2).codec = cfg.codec :=
        config_vb_codec cfg pc
      cases buf with
      | some f =>
          have ihr := ih ⟨consumeOneShot ((config_vb cfg pc).2.2), true⟩ rfl
          constructor
          · simp only [runJobs]
            rw [headerUpdates_cons_none _ _ rfl]
            exact ihr.1
          · simp only [runJobs]
            rw [bitstream_cons]
            intro u hu
            rcases List.mem_append.1 hu with hu | hu
            · have hu2 : u = { unitType := (if (effective ((config_vb cfg pc).2.2) tn).keyRequest then idrType ((config_vb cfg pc).2.2).codec else nonIdrType), payload := f } := List.mem_singleton.1 hu
              subst hu2
              cases hk : (effective ((config_vb cfg pc).2.2) tn).keyRequest
              · exact Or.inl (by simp [hk])
              · refine Or.inr ?_
                simp [hk, hcodec]
            · have h2 := ihr.2 u hu
              rcases h2 with h2 | h2
              · exact Or.inl h2
              · refine Or.inr ?_
                rw [h2, consumeOneShot_codec, hcodec]
      | none =>
          have ihr := ih ⟨(config_vb cfg pc).2.2, true⟩ rfl
          constructor
          · simp only [runJobs]
            rw [headerUpdates_cons_none _ _ rfl]
            exact ihr.1
          · simp only [runJobs]
            rw [bitstream_cons]
            intro u hu
            rcases List.mem_append.1 hu with hu | hu
            · exact absurd hu (List.not_mem_nil u)
            · have h2 := ihr.2 u hu
              rcases h2 with h2 | h2
              · exact Or.inl h2
              · refine Or.inr ?_
                rw [h2, hcodec]

theorem runJobs_headerPending : ∀ (jobs : List Job) (s : SessionState),
    s.headerSent = false → jobs.any isFilled = true →
    ∃ (g1 : GlobalState) (rest : List NalUnit),
      g1.codec = s.cfg.codec ∧
      headerUpdates (runJobs s jobs).2 = [headerUnits g1] ∧
      bitstream (runJobs s jobs).2 = headerUnits g1 ++ rest ∧
      (∀ u ∈ rest,
        u.unitType = nonIdrType ∨ u.unitType = idrType s.cfg.codec) := by
  intro jobs
  induction jobs with
  | nil => intro s _ hany; simp at hany
  | cons j rest ih =>
      intro s hsent hany
      obtain ⟨cfg, hs⟩ := s
      change hs = false at hsent
      subst hsent
      obtain ⟨pc, fi, ts, eos, buf, tn⟩ := j
      have hcodec : ((config_vb cfg pc).2.2).codec = cfg.codec :=
        config_vb_codec cfg pc
      cases buf with
      | some f =>
          have hpost := runJobs_postHeader rest
            ⟨consumeOneShot ((config_vb cfg pc).2.2), true⟩ rfl
          refine ⟨(config_vb cfg pc).2.2,
            [{ unitType := (if (effective ((config_vb cfg pc).2.2) tn).keyRequest then idrType ((config_vb cfg pc).2.2).codec else nonIdrType), payload := f }] ++
              bitstream (runJobs ⟨consumeOneShot ((config_vb cfg pc).2.2), true⟩ rest).2,
            hcodec, ?_, ?_, ?_⟩
          · simp only [runJobs]
            rw [headerUpdates_cons_some _ _ (headerUnits ((config_vb cfg pc).2.2)) rfl]
            exact congrArg₂ List.cons rfl hpost.1
          · simp only [runJobs]
            rw [bitstream_cons]
            rw [show ((runJob (⟨cfg, false⟩ : SessionState) ⟨pc, ⟨fi, ts, eos, some f, tn⟩⟩).2).buffers = headerUnits ((config_vb cfg pc).2.2) ++ [{ unitType := (if (effective ((config_vb cfg pc).2.2) tn).keyRequest then idrType ((config_vb cfg pc).2.2).codec else nonIdrType), payload := f }] from rfl]
            rw [List.append_assoc]
            exact rfl
          · intro u hu
            rcases List.mem_append.1 hu with hu | hu
            · have hu2 := List.mem_singleton.1 hu
              subst hu2
              cases hk : (effective ((config_vb cfg pc).2.2) tn).keyRequest
              · exact Or.inl (by simp [hk])
              · refine Or.inr ?_
                simp [hk, hcodec]
            · have h2 := hpost.2 u hu
              rcases h2 with h2 | h2
              · exact Or.inl h2
              · refine Or.inr ?_
                rw [h2, consumeOneShot_codec, hcodec]
      | none =>
          have hany2 : rest.any isFilled = true := by
            simpa [isFilled] using hany
          obtain ⟨g1, rest2, hg1, hupd, hbits, hsl⟩ :=
            ih ⟨(config_vb cfg pc).2.2, false⟩ rfl hany2
          refine ⟨g1, rest2, hg1.trans hcodec, ?_, ?_, ?_⟩
          · simp only [runJobs]
            rw [headerUpdates_cons_none _ _ rfl]
            exact hupd
          · simp only [runJobs]
            rw [bitstream_cons]
            rw [show ((runJob (⟨cfg, false⟩ : SessionState) ⟨pc, ⟨fi, ts, eos, none, tn⟩⟩).2).buffers = [] from rfl]
            rw [List.nil_append]
            exact hbits
          · intro u hu
            rcases hsl u hu with h2 | h2
            · exact Or.inl h2
            · refine Or.inr ?_
              rw [h2, hcodec]

/-- C10: in every encode session that processes at least one filled item,
the codec initialization header is delivered through a work result's
configuration-update list exactly once (not zero times, not more than
once), and its contents equal the concatenated VPS (HEVC only) + SPS + PPS
units extracted from the emitted bitstream. -/
theorem c10_header_supplied_once (g : GlobalState) (jobs : List Job)
    (hfilled : jobs.any isFilled = true) :
    headerUpdates (encodeSession g jobs) =
      [extractHeader g.codec (bitstream (encodeSession g jobs))] ∧
    (encodeSession g jobs).countP (fun r => r.configUpdate.isSome) = 1 := by
  obtain ⟨g1, rest, hcodec, hupd, hbits, hslices⟩ :=
    runJobs_headerPending jobs (initSession g) rfl hfilled
  have hcodec2 : g1.codec = g.codec := hcodec
  have hslices2 : ∀ u ∈ rest,
      u.unitType = nonIdrType ∨ u.unitType = idrType g.codec := hslices
  constructor
  · unfold encodeSession
    rw [hupd, hbits, extractHeader_append_slices g.codec _ rest hslices2]
    have hh : extractHeader g.codec (headerUnits g1) = headerUnits g1 :=
      hcodec2 ▸ extractHeader_headerUnits g1
    rw [hh]
  · have hlen := congrArg List.length hupd
    rw [headerUpdates_length] at hlen
    exact hlen

/-- C10 witness: the theorem instantiated on a session of one empty and
two filled items on the default component state. -/
theorem c10_header_supplied_once_witness :
    ([sampleEmptyJob 0, sampleFilledJob 1, sampleFilledJob 2].any isFilled
      = true) ∧
    (encodeSession defaultGlobalState
        [sampleEmptyJob 0, sampleFilledJob 1, sampleFilledJob 2]).countP
      (fun r => r.configUpdate.isSome) = 1 :=
  ⟨by decide,
   (c10_header_supplied_once defaultGlobalState
      [sampleEmptyJob 0, sampleFilledJob 1, sampleFilledJob 2]
      (by decide)).2⟩
